import Mathlib

/-!
Shallow embedding of `src/passgen.c`, a command-line password generator.

The C library call `rand()` is modelled as an arbitrary stream
`rng : Nat → Nat` together with a counter `k`: the `n`-th call to `rand()`
performed after counter state `k` returns `rng (k + n)`.  Quantifying over
all `rng` quantifies over every possible sequence of random draws.

Character buffers are `List Char`.  For every reachable call,
`generate_password` freshly writes positions `0 .. length-1` of the C buffer
and null-terminates at `length`, so the C string it produces is exactly the
returned list.
-/

/-- The constant `UPPERCASE` of passgen.c (line 9). -/
def UPPERCASE : List Char := "ABCDEFGHJKLMNPQRSTUVWXYZ".toList

/-- The constant `LOWERCASE` of passgen.c (line 10). -/
def LOWERCASE : List Char := "abcdefghijkmnpqrstuvwxyz".toList

/-- The constant `NUMBERS` of passgen.c (line 11). -/
def NUMBERS : List Char := "23456789".toList

/-- The constant `SPECIAL` of passgen.c (line 12). -/
def SPECIAL : List Char := "!@#$%^&*()_+-=[]\x7b\x7d|;:,.<>?".toList

/-- The five visually-similar characters that the comment on passgen.c line 8
and the banner on line 150 say are excluded. -/
def excluded_similar : List Char := ['0', 'O', 'I', 'l', '1']

/-- passgen.c lines 27-30, `get_random_char`: `charset[rand() % strlen(charset)]`,
with the draw `rand()` passed in as `r`.  All four charsets are non-empty, so
the `getD` default is never used at a reachable index. -/
def get_random_char (charset : List Char) (r : Nat) : Char :=
  charset.getD (r % charset.length) 'A'

/-- One iteration body of passgen.c lines 35-37: swap `str[i]` and `str[j]`. -/
def list_swap (l : List Char) (i j : Nat) : List Char :=
  (l.set i (l.getD j 'A')).set j (l.getD i 'A')

/-- The loop of passgen.c lines 33-38, indexed by the current value of `i`:
`shuffle_aux rng k i str` runs the loop body for `i, i-1, ..., 1`, each step
drawing `j = rand() % (i + 1)` and swapping positions `i` and `j`. -/
def shuffle_aux (rng : Nat → Nat) (k : Nat) : Nat → List Char → List Char
  | 0, str => str
  | i + 1, str => shuffle_aux rng (k + 1) i (list_swap str (i + 1) (rng k % (i + 2)))

/-- passgen.c lines 32-39, `shuffle_string`: Fisher-Yates from index
`length - 1` down to index 1. -/
def shuffle_string (rng : Nat → Nat) (k : Nat) (str : List Char) : List Char :=
  shuffle_aux rng k (str.length - 1) str

/-- The value of `pos` after the guaranteed-inclusion phase of passgen.c
lines 42-51: 4 when `include_special && length >= 4`, else 3. -/
def guaranteed_count (length : Nat) (include_special : Bool) : Nat :=
  if include_special ∧ 4 ≤ length then 4 else 3

/-- The characters written by the guaranteed-inclusion phase, passgen.c
lines 44-51: one draw from UPPERCASE, LOWERCASE, NUMBERS, and, when
`include_special && length >= 4`, one from SPECIAL. -/
def guaranteed_chars (rng : Nat → Nat) (k : Nat) (length : Nat) (include_special : Bool) :
    List Char :=
  [get_random_char UPPERCASE (rng k),
   get_random_char LOWERCASE (rng (k + 1)),
   get_random_char NUMBERS (rng (k + 2))] ++
  (if include_special ∧ 4 ≤ length then [get_random_char SPECIAL (rng (k + 3))] else [])

/-- The local `charset_choice` of passgen.c lines 55-61: `rand() % 4` when
special characters are enabled, else `rand() % 3`. -/
def fill_charset_choice (rng : Nat → Nat) (k : Nat) (include_special : Bool) : Nat :=
  if include_special then rng k % 4 else rng k % 3

/-- One iteration of the fill loop, passgen.c lines 54-77: draw
`charset_choice`, then dispatch through the `switch` of lines 63-76 to one
more draw inside `get_random_char`.  The draw for the class is `rng k`, the
draw for the character is `rng (k+1)`. -/
def fill_char (rng : Nat → Nat) (k : Nat) (include_special : Bool) : Char :=
  if fill_charset_choice rng k include_special = 0 then get_random_char UPPERCASE (rng (k + 1))
  else if fill_charset_choice rng k include_special = 1 then get_random_char LOWERCASE (rng (k + 1))
  else if fill_charset_choice rng k include_special = 2 then get_random_char NUMBERS (rng (k + 1))
  else get_random_char SPECIAL (rng (k + 1))

/-- The `m` characters written by the fill loop, passgen.c lines 54-77; each
slot consumes two draws, so slot `j` uses draws `k + 2*j` and `k + 2*j + 1`. -/
def fill_chars (rng : Nat → Nat) (k : Nat) (include_special : Bool) : Nat → List Char
  | 0 => []
  | m + 1 => fill_char rng k include_special :: fill_chars rng (k + 2) include_special m

/-- The buffer contents `password[0 .. length-1]` just before the shuffle of
passgen.c line 80: the guaranteed characters followed by the fill characters.
The `take` models the null terminator written at `password[length]`: for
`length < 3` the C code still writes the three guaranteed characters into the
buffer but the terminator cuts the string at `length`. -/
def password_buffer (rng : Nat → Nat) (k : Nat) (length : Nat) (include_special : Bool) :
    List Char :=
  (guaranteed_chars rng k length include_special ++
    fill_chars rng (k + guaranteed_count length include_special) include_special
      (length - guaranteed_count length include_special)).take length

/-- passgen.c lines 41-84, `generate_password`: guaranteed-inclusion phase,
fill phase, then `shuffle_string(password, length)`; the returned list is the
C string left in `password` (null-terminated at index `length`). -/
def generate_password (rng : Nat → Nat) (k : Nat) (length : Nat) (include_special : Bool) :
    List Char :=
  shuffle_string rng
    (k + guaranteed_count length include_special +
      2 * (length - guaranteed_count length include_special))
    (password_buffer rng k length include_special)

/-- Total number of `rand()` calls one `generate_password` call consumes:
`pos` for the guaranteed phase, two per fill slot, and `length - 1` for the
shuffle. -/
def draws_used (length : Nat) (include_special : Bool) : Nat :=
  guaranteed_count length include_special +
    2 * (length - guaranteed_count length include_special) + (length - 1)

/-- One line of process output: `out` models a line written to standard
output, `err` a line written to standard error. -/
inductive OutLine where
  | out : String → OutLine
  | err : String → OutLine
deriving DecidableEq

/-- The header printed by passgen.c lines 143-150; the trailing empty line
models the blank line of the `\n\n` on line 150. -/
def header_lines (length : Nat) (include_special : Bool) (count : Nat) : List OutLine :=
  [OutLine.out ((("Generated password" ++ (if 1 < count then "s" else "")) ++ ":")),
   OutLine.out (("Length: " ++ toString length ++ " characters")),
   OutLine.out (("Character sets: Uppercase, Lowercase, Numbers" ++
     (if include_special then ", Special characters" else ""))),
   OutLine.out ("Excluded similar characters: 0, O, I, l, 1"),
   OutLine.out ("")]

/-- The generation loop of passgen.c lines 152-155: `password_loop rng length
include_special k i c` prints the remaining `c` passwords, the next one
numbered `i + 1`, with the `rand()` counter currently at `k`. -/
def password_loop (rng : Nat → Nat) (length : Nat) (include_special : Bool) :
    Nat → Nat → Nat → List OutLine
  | _, _, 0 => []
  | k, i, c + 1 =>
    OutLine.out ((toString (i + 1) ++ ": " ++ String.mk (generate_password rng k length include_special))) ::
      password_loop rng length include_special (k + draws_used length include_special) (i + 1) c

/-- The error message of passgen.c line 131. -/
def special_length_error : String :=
  "Error: Password length must be at least 4 when using special characters"

/-- passgen.c lines 129-157: `main` after `getopt` parsing has produced
`length`, `include_special` and `count` (the per-flag bounds checks happen
inside the parse loop, lines 93-127).  Returns the exit code and the lines
written, in order.  The cross-flag check on line 130 runs before any header
or password is printed. -/
def main_after_parse (rng : Nat → Nat) (k : Nat) (length : Nat) (include_special : Bool)
    (count : Nat) : Nat × List OutLine :=
  if include_special ∧ length < 4 then
    (1, [OutLine.err special_length_error])
  else
    (0, header_lines length include_special count ++
      password_loop rng length include_special k 0 count)

/-- The all-zero draw stream, used to instantiate theorems at a concrete
random sequence. -/
def zrng : Nat → Nat := fun _ => 0

/-! ### Basic lemmas about the embedded operations -/

/-- A character drawn from a non-empty charset is a character of that charset. -/
theorem get_random_char_mem (charset : List Char) (r : Nat) (h : 0 < charset.length) :
    get_random_char charset r ∈ charset := by
  unfold get_random_char
  rw [List.getD_eq_getElem _ _ (Nat.mod_lt _ h)]
  exact List.getElem_mem _

/-- Replacing element `m` of `t` by `a` while pulling the old element `t[m]`
to the front is a permutation of pushing `a` to the front. -/
theorem cons_set_perm : ∀ (t : List Char) (m : Nat) (a d : Char), m < t.length →
    List.Perm (t.getD m d :: t.set m a) (a :: t)
  | [], m, _, _, h => absurd h (by simp)
  | b :: t, 0, a, d, _ => by
      simp only [List.getD_cons_zero, List.set_cons_zero]
      exact List.Perm.swap a b t
  | b :: t, m + 1, a, d, h => by
      simp only [List.getD_cons_succ, List.set_cons_succ]
      have ih := cons_set_perm t m a d (by simpa using h)
      have s1 : List.Perm (t.getD m d :: b :: t.set m a) (b :: t.getD m d :: t.set m a) :=
        List.Perm.swap b (t.getD m d) (t.set m a)
      have s2 : List.Perm (b :: t.getD m d :: t.set m a) (b :: a :: t) := ih.cons b
      have s3 : List.Perm (b :: a :: t) (a :: b :: t) := List.Perm.swap a b t
      exact (s1.trans s2).trans s3

/-- Swapping two in-range positions of a list is a permutation. -/
theorem list_swap_perm : ∀ (l : List Char) (i j : Nat), i < l.length → j < l.length →
    List.Perm (list_swap l i j) l
  | [], _, _, hi, _ => absurd hi (by simp)
  | a :: t, 0, 0, _, _ => by
      simp [list_swap]
  | a :: t, 0, m + 1, _, hj => by
      unfold list_swap
      simp only [List.getD_cons_succ, List.getD_cons_zero, List.set_cons_zero,
        List.set_cons_succ]
      exact cons_set_perm t m a 'A' (by simpa using hj)
  | a :: t, n + 1, 0, hi, _ => by
      unfold list_swap
      simp only [List.getD_cons_succ, List.getD_cons_zero, List.set_cons_zero,
        List.set_cons_succ]
      exact cons_set_perm t n a 'A' (by simpa using hi)
  | a :: t, n + 1, m + 1, hi, hj => by
      unfold list_swap
      simp only [List.getD_cons_succ, List.set_cons_succ]
      exact (list_swap_perm t n m (by simpa using hi) (by simpa using hj)).cons a

/-- Every run of the Fisher-Yates loop starting at an in-range index produces
a permutation of its input. -/
theorem shuffle_aux_perm (rng : Nat → Nat) : ∀ (n k : Nat) (l : List Char), n < l.length →
    List.Perm (shuffle_aux rng k n l) l
  | 0, _, l, _ => by
      simp [shuffle_aux]
  | n + 1, k, l, h => by
      unfold shuffle_aux
      have hj : rng k % (n + 2) < l.length :=
        lt_of_lt_of_le (Nat.mod_lt _ (by omega)) (by omega)
      have hsw := list_swap_perm l (n + 1) (rng k % (n + 2)) h hj
      have ih := shuffle_aux_perm rng n (k + 1) (list_swap l (n + 1) (rng k % (n + 2)))
        (by rw [hsw.length_eq]; omega)
      exact ih.trans hsw

/-- `shuffle_string` produces a permutation of its input, for every sequence
of random draws. -/
theorem shuffle_string_perm (rng : Nat → Nat) (k : Nat) (l : List Char) :
    List.Perm (shuffle_string rng k l) l := by
  cases l with
  | nil => simp [shuffle_string, shuffle_aux]
  | cons a t =>
      apply shuffle_aux_perm
      simp

/-- The fill phase writes exactly the requested number of characters. -/
theorem fill_chars_length (rng : Nat → Nat) (include_special : Bool) :
    ∀ (m k : Nat), (fill_chars rng k include_special m).length = m
  | 0, _ => rfl
  | m + 1, k => by
      simp [fill_chars, fill_chars_length rng include_special m (k + 2)]

/-- The guaranteed-inclusion phase writes `guaranteed_count` characters. -/
theorem guaranteed_chars_length (rng : Nat → Nat) (k length : Nat) (include_special : Bool) :
    (guaranteed_chars rng k length include_special).length =
      guaranteed_count length include_special := by
  by_cases h : (include_special : Prop) ∧ 4 ≤ length <;>
    simp [guaranteed_chars, guaranteed_count, h]

/-- For lengths at least 3 the guaranteed phase never overruns the buffer. -/
theorem guaranteed_count_le (length : Nat) (include_special : Bool) (h : 3 ≤ length) :
    guaranteed_count length include_special ≤ length := by
  unfold guaranteed_count
  split
  · next hc => exact hc.2
  · exact h

/-- The pre-shuffle buffer always holds exactly `length` characters. -/
theorem password_buffer_length (rng : Nat → Nat) (k length : Nat) (include_special : Bool) :
    (password_buffer rng k length include_special).length = length := by
  unfold password_buffer
  rw [List.length_take, List.length_append, guaranteed_chars_length, fill_chars_length]
  omega

/-- The generated password always holds exactly `length` characters. -/
theorem generate_password_length (rng : Nat → Nat) (k length : Nat) (include_special : Bool) :
    (generate_password rng k length include_special).length = length := by
  unfold generate_password
  rw [(shuffle_string_perm _ _ _).length_eq, password_buffer_length]

/-- When the guaranteed phase fits in the buffer, the pre-shuffle buffer is
the guaranteed characters followed by the fill characters. -/
theorem password_buffer_eq (rng : Nat → Nat) (k length : Nat) (include_special : Bool)
    (h : guaranteed_count length include_special ≤ length) :
    password_buffer rng k length include_special =
      guaranteed_chars rng k length include_special ++
        fill_chars rng (k + guaranteed_count length include_special) include_special
          (length - guaranteed_count length include_special) := by
  unfold password_buffer
  apply List.take_of_length_le
  rw [List.length_append, guaranteed_chars_length, fill_chars_length]
  omega

/-- Every character the fill loop writes comes from one of the four charsets. -/
theorem fill_char_mem_union (rng : Nat → Nat) (k : Nat) (include_special : Bool) :
    fill_char rng k include_special ∈ UPPERCASE ∨
    fill_char rng k include_special ∈ LOWERCASE ∨
    fill_char rng k include_special ∈ NUMBERS ∨
    fill_char rng k include_special ∈ SPECIAL := by
  unfold fill_char
  split_ifs
  · exact Or.inl (get_random_char_mem _ _ (by decide))
  · exact Or.inr (Or.inl (get_random_char_mem _ _ (by decide)))
  · exact Or.inr (Or.inr (Or.inl (get_random_char_mem _ _ (by decide))))
  · exact Or.inr (Or.inr (Or.inr (get_random_char_mem _ _ (by decide))))

/-- Without special characters the class draw is `rand() % 3`, so the fill
loop only ever writes uppercase, lowercase or number characters. -/
theorem fill_char_false_mem (rng : Nat → Nat) (k : Nat) :
    fill_char rng k false ∈ UPPERCASE ∨ fill_char rng k false ∈ LOWERCASE ∨
    fill_char rng k false ∈ NUMBERS := by
  have hlt : fill_charset_choice rng k false < 3 := by
    unfold fill_charset_choice
    simp only [Bool.false_eq_true, if_false]
    exact Nat.mod_lt _ (by omega)
  unfold fill_char
  split_ifs with h0 h1 h2
  · exact Or.inl (get_random_char_mem _ _ (by decide))
  · exact Or.inr (Or.inl (get_random_char_mem _ _ (by decide)))
  · exact Or.inr (Or.inr (get_random_char_mem _ _ (by decide)))
  · omega

/-- Every character of the fill phase comes from one of the four charsets. -/
theorem mem_fill_union (rng : Nat → Nat) (include_special : Bool) :
    ∀ (m k : Nat) (c : Char), c ∈ fill_chars rng k include_special m →
      c ∈ UPPERCASE ∨ c ∈ LOWERCASE ∨ c ∈ NUMBERS ∨ c ∈ SPECIAL
  | 0, _, _, h => absurd h (by simp [fill_chars])
  | m + 1, k, c, h => by
      rcases List.mem_cons.mp h with he | ht
      · rw [he]
        exact fill_char_mem_union rng k include_special
      · exact mem_fill_union rng include_special m (k + 2) c ht

/-- Every character of the pre-shuffle buffer comes from one of the four
charsets. -/
theorem mem_buffer_union (rng : Nat → Nat) (k length : Nat) (include_special : Bool)
    (c : Char) (h : c ∈ password_buffer rng k length include_special) :
    c ∈ UPPERCASE ∨ c ∈ LOWERCASE ∨ c ∈ NUMBERS ∨ c ∈ SPECIAL := by
  unfold password_buffer at h
  have h' := List.take_subset _ _ h
  rcases List.mem_append.mp h' with hg | hf
  · unfold guaranteed_chars at hg
    rcases List.mem_append.mp hg with hg3 | hgs
    · simp only [List.mem_cons, List.not_mem_nil, or_false] at hg3
      rcases hg3 with he | he | he <;> rw [he]
      · exact Or.inl (get_random_char_mem _ _ (by decide))
      · exact Or.inr (Or.inl (get_random_char_mem _ _ (by decide)))
      · exact Or.inr (Or.inr (Or.inl (get_random_char_mem _ _ (by decide))))
    · split at hgs
      · simp only [List.mem_singleton] at hgs
        rw [hgs]
        exact Or.inr (Or.inr (Or.inr (get_random_char_mem _ _ (by decide))))
      · exact absurd hgs (by simp)
  · exact mem_fill_union rng include_special _ _ c hf

/-- Every character of the generated password comes from one of the four
charsets. -/
theorem mem_generate_union (rng : Nat → Nat) (k length : Nat) (include_special : Bool)
    (c : Char) (h : c ∈ generate_password rng k length include_special) :
    c ∈ UPPERCASE ∨ c ∈ LOWERCASE ∨ c ∈ NUMBERS ∨ c ∈ SPECIAL :=
  mem_buffer_union rng k length include_special c
    ((shuffle_string_perm _ _ _).mem_iff.mp h)

/-- Slot `j` of the fill phase is the fill step run at draw counter `k + 2*j`:
each slot is an independent two-draw choice. -/
theorem fill_chars_getD (rng : Nat → Nat) (include_special : Bool) (d : Char) :
    ∀ (m j k : Nat), j < m →
      (fill_chars rng k include_special m).getD j d = fill_char rng (k + 2 * j) include_special
  | 0, j, _, h => absurd h (by omega)
  | m + 1, 0, k, _ => by
      simp [fill_chars]
  | m + 1, j + 1, k, h => by
      have ih := fill_chars_getD rng include_special d m j (k + 2) (by omega)
      simp only [fill_chars, List.getD_cons_succ]
      rw [ih]
      congr 1
      omega

/-- Position `i` of the pre-shuffle buffer, for `i` past the guaranteed
prefix, is the fill step run at draw counter `k + pos + 2*(i - pos)`. -/
theorem password_buffer_getD_fill (rng : Nat → Nat) (k length : Nat) (include_special : Bool)
    (i : Nat) (hle : guaranteed_count length include_special ≤ length)
    (hlo : guaranteed_count length include_special ≤ i) (hhi : i < length) :
    (password_buffer rng k length include_special).getD i 'A' =
      fill_char rng
        (k + guaranteed_count length include_special +
          2 * (i - guaranteed_count length include_special)) include_special := by
  rw [password_buffer_eq rng k length include_special hle]
  rw [List.getD_append_right _ _ _ _ (by rw [guaranteed_chars_length]; exact hlo)]
  rw [guaranteed_chars_length]
  exact fill_chars_getD rng include_special 'A' _ _ _ (by omega)

/-- The generation loop prints one line per requested password. -/
theorem password_loop_length (rng : Nat → Nat) (length : Nat) (include_special : Bool) :
    ∀ (c k i : Nat), (password_loop rng length include_special k i c).length = c
  | 0, _, _ => rfl
  | c + 1, k, i => by
      simp [password_loop, password_loop_length rng length include_special c]

/-- Line `j` of the generation loop is the password numbered `i + j + 1`,
generated from the draw counter advanced by `j` full passwords. -/
theorem password_loop_getD (rng : Nat → Nat) (length : Nat) (include_special : Bool) :
    ∀ (c j k i : Nat), j < c →
      (password_loop rng length include_special k i c).getD j (OutLine.out ("")) =
        OutLine.out ((toString (i + j + 1) ++ ": " ++
          String.mk (generate_password rng (k + j * draws_used length include_special)
            length include_special)))
  | 0, j, _, _, h => absurd h (by omega)
  | c + 1, 0, k, i, _ => by
      simp [password_loop]
  | c + 1, j + 1, k, i, h => by
      have ih := password_loop_getD rng length include_special c j
        (k + draws_used length include_special) (i + 1) (by omega)
      simp only [password_loop, List.getD_cons_succ]
      rw [ih]
      have h1 : i + 1 + j + 1 = i + (j + 1) + 1 := by omega
      have h2 : k + draws_used length include_special +
          j * draws_used length include_special =
          k + (j + 1) * draws_used length include_special := by ring
      rw [h1, h2]

/-- None of the four charsets contains any of the five excluded characters. -/
theorem excluded_not_in_charsets :
    ∀ c, c ∈ excluded_similar →
      c ∉ UPPERCASE ∧ c ∉ LOWERCASE ∧ c ∉ NUMBERS ∧ c ∉ SPECIAL := by
  decide

/-- No uppercase character is a special character. -/
theorem upper_not_special : ∀ c, c ∈ UPPERCASE → c ∉ SPECIAL := by
  decide

/-- No lowercase character is a special character. -/
theorem lower_not_special : ∀ c, c ∈ LOWERCASE → c ∉ SPECIAL := by
  decide

/-- No number character is a special character. -/
theorem numbers_not_special : ∀ c, c ∈ NUMBERS → c ∉ SPECIAL := by
  decide

/-! ### The claims -/

/-- Claim C1: for every valid policy (length in [3,128], and length at least 4
when includeSpecial), the password returned by generate_password contains at
least one character from UPPERCASE, at least one from LOWERCASE, at least one
from NUMBERS, and, when includeSpecial is set, at least one from SPECIAL. -/
theorem C1_guaranteed_composition (rng : Nat → Nat) (k length : Nat) (include_special : Bool)
    (h3 : 3 ≤ length) (h128 : length ≤ 128) (hs : include_special = true → 4 ≤ length) :
    (∃ c, c ∈ generate_password rng k length include_special ∧ c ∈ UPPERCASE) ∧
    (∃ c, c ∈ generate_password rng k length include_special ∧ c ∈ LOWERCASE) ∧
    (∃ c, c ∈ generate_password rng k length include_special ∧ c ∈ NUMBERS) ∧
    (include_special = true →
      ∃ c, c ∈ generate_password rng k length include_special ∧ c ∈ SPECIAL) := by
  have hpos := guaranteed_count_le length include_special h3
  have hbuf := password_buffer_eq rng k length include_special hpos
  have hperm : List.Perm (generate_password rng k length include_special)
      (password_buffer rng k length include_special) := shuffle_string_perm _ _ _
  refine ⟨⟨get_random_char UPPERCASE (rng k), ?_, get_random_char_mem _ _ (by decide)⟩,
    ⟨get_random_char LOWERCASE (rng (k + 1)), ?_, get_random_char_mem _ _ (by decide)⟩,
    ⟨get_random_char NUMBERS (rng (k + 2)), ?_, get_random_char_mem _ _ (by decide)⟩,
    fun hsp => ⟨get_random_char SPECIAL (rng (k + 3)), ?_,
      get_random_char_mem _ _ (by decide)⟩⟩
  · rw [hperm.mem_iff, hbuf]
    apply List.mem_append_left
    simp [guaranteed_chars]
  · rw [hperm.mem_iff, hbuf]
    apply List.mem_append_left
    simp [guaranteed_chars]
  · rw [hperm.mem_iff, hbuf]
    apply List.mem_append_left
    simp [guaranteed_chars]
  · rw [hperm.mem_iff, hbuf]
    apply List.mem_append_left
    unfold guaranteed_chars
    apply List.mem_append_right
    rw [if_pos ⟨hsp, hs hsp⟩]
    simp

/-- Witness for C1 at the all-zero draw stream, length 12, no specials. -/
theorem C1_guaranteed_composition_witness :
    (∃ c, c ∈ generate_password zrng 0 12 false ∧ c ∈ UPPERCASE) ∧
    (∃ c, c ∈ generate_password zrng 0 12 false ∧ c ∈ LOWERCASE) ∧
    (∃ c, c ∈ generate_password zrng 0 12 false ∧ c ∈ NUMBERS) ∧
    (false = true → ∃ c, c ∈ generate_password zrng 0 12 false ∧ c ∈ SPECIAL) :=
  C1_guaranteed_composition zrng 0 12 false (by decide) (by decide) (by decide)

/-- Claim C2: for every valid policy, generate_password produces a string of
exactly `length` characters (the C buffer is filled at positions
0..length-1 and null-terminated at position length; the modelled result is
that string). -/
theorem C2_exact_length (rng : Nat → Nat) (k length : Nat) (include_special : Bool)
    (h3 : 3 ≤ length) (h128 : length ≤ 128) (hs : include_special = true → 4 ≤ length) :
    (generate_password rng k length include_special).length = length :=
  generate_password_length rng k length include_special

/-- Witness for C2 at the all-zero draw stream, length 12, no specials. -/
theorem C2_exact_length_witness :
    (generate_password zrng 0 12 false).length = 12 :=
  C2_exact_length zrng 0 12 false (by decide) (by decide) (by decide)

/-- Claim C3: for every valid policy, every character of the generated
password comes from one of the four charset constants, none of those
constants contains any of '0', 'O', 'I', 'l', '1', and hence no character of
the password is one of those five. -/
theorem C3_excluded_similar_chars (rng : Nat → Nat) (k length : Nat) (include_special : Bool)
    (h3 : 3 ≤ length) (h128 : length ≤ 128) (hs : include_special = true → 4 ≤ length) :
    (∀ c, c ∈ generate_password rng k length include_special →
      c ∈ UPPERCASE ∨ c ∈ LOWERCASE ∨ c ∈ NUMBERS ∨ c ∈ SPECIAL) ∧
    (∀ c, c ∈ excluded_similar →
      c ∉ UPPERCASE ∧ c ∉ LOWERCASE ∧ c ∉ NUMBERS ∧ c ∉ SPECIAL) ∧
    (∀ c, c ∈ generate_password rng k length include_special → c ∉ excluded_similar) := by
  refine ⟨fun c hc => mem_generate_union rng k length include_special c hc,
    excluded_not_in_charsets, ?_⟩
  intro c hc hex
  have hx := excluded_not_in_charsets c hex
  rcases mem_generate_union rng k length include_special c hc with h | h | h | h
  · exact hx.1 h
  · exact hx.2.1 h
  · exact hx.2.2.1 h
  · exact hx.2.2.2 h

/-- Witness for C3 at the all-zero draw stream, length 12, no specials. -/
theorem C3_excluded_similar_chars_witness :
    (∀ c, c ∈ generate_password zrng 0 12 false →
      c ∈ UPPERCASE ∨ c ∈ LOWERCASE ∨ c ∈ NUMBERS ∨ c ∈ SPECIAL) ∧
    (∀ c, c ∈ excluded_similar →
      c ∉ UPPERCASE ∧ c ∉ LOWERCASE ∧ c ∉ NUMBERS ∧ c ∉ SPECIAL) ∧
    (∀ c, c ∈ generate_password zrng 0 12 false → c ∉ excluded_similar) :=
  C3_excluded_similar_chars zrng 0 12 false (by decide) (by decide) (by decide)

/-- Claim C4: for every string of length at least 1 and every sequence of
random draws, shuffle_string (which iterates from index n-1 down to index 1,
its step at index i swapping position i with position `rng _ % (i+1)`, an
index at most i) returns a permutation of its input; the draw used at index
i is the one at counter offset `n - 1 - i`, and it always lands in [0, i]. -/
theorem C4_shuffle_is_permutation (rng : Nat → Nat) (k : Nat) (str : List Char)
    (h : 1 ≤ str.length) :
    List.Perm (shuffle_string rng k str) str ∧
    (∀ i, 1 ≤ i → i < str.length →
      rng (k + (str.length - 1 - i)) % (i + 1) ≤ i) := by
  refine ⟨shuffle_string_perm rng k str, ?_⟩
  intro i h1 hi
  have := Nat.mod_lt (rng (k + (str.length - 1 - i))) (show 0 < i + 1 by omega)
  omega

/-- Witness for C4 at the all-zero draw stream on a three-character string. -/
theorem C4_shuffle_is_permutation_witness :
    List.Perm (shuffle_string zrng 0 ['a', 'b', 'c']) ['a', 'b', 'c'] ∧
    (∀ i, 1 ≤ i → i < (['a', 'b', 'c'] : List Char).length →
      zrng (0 + ((['a', 'b', 'c'] : List Char).length - 1 - i)) % (i + 1) ≤ i) :=
  C4_shuffle_is_permutation zrng 0 ['a', 'b', 'c'] (by decide)

/-- Claim C5 counterexample: invoked with the invalid policy length = 3,
includeSpecial = true (length < 4 with specials), generate_password does not
fail: it returns a normal 3-character password, and one with no special
character at all (the special guarantee of passgen.c line 49 is skipped
because of its `length >= 4` guard). -/
theorem C5_counterexample :
    (generate_password zrng 0 3 true).length = 3 ∧
    (∀ c, c ∈ generate_password zrng 0 3 true → c ∉ SPECIAL) := by
  decide

/-- Claim C5 as amended: generate_password itself performs no policy
validation and raises no error; invoked with includeSpecial and an invalid
length below 4 it still produces a password of exactly `length` characters,
one containing no special character; the invalid-policy rejection is done by
main (passgen.c line 130), before any password is generated, with exit code 1. -/
theorem C5_no_defensive_check (rng : Nat → Nat) (k length count : Nat)
    (h3 : 3 ≤ length) (h4 : length < 4) :
    (generate_password rng k length true).length = length ∧
    (∀ c, c ∈ generate_password rng k length true → c ∉ SPECIAL) ∧
    (main_after_parse rng k length true count).fst = 1 := by
  have hL : length = 3 := by omega
  subst hL
  refine ⟨generate_password_length rng k 3 true, ?_, ?_⟩
  · intro c hc
    have hbufm : c ∈ ([get_random_char UPPERCASE (rng k),
        get_random_char LOWERCASE (rng (k + 1)),
        get_random_char NUMBERS (rng (k + 2))] : List Char) :=
      (shuffle_string_perm _ _ _).mem_iff.mp hc
    simp only [List.mem_cons, List.not_mem_nil, or_false] at hbufm
    rcases hbufm with he | he | he <;> rw [he]
    · exact upper_not_special _ (get_random_char_mem _ _ (by decide))
    · exact lower_not_special _ (get_random_char_mem _ _ (by decide))
    · exact numbers_not_special _ (get_random_char_mem _ _ (by decide))
  · unfold main_after_parse
    rw [if_pos ⟨rfl, by omega⟩]

/-- Witness for the amended C5 at the all-zero draw stream, length 3. -/
theorem C5_no_defensive_check_witness :
    (generate_password zrng 0 3 true).length = 3 ∧
    (∀ c, c ∈ generate_password zrng 0 3 true → c ∉ SPECIAL) ∧
    (main_after_parse zrng 0 3 true 1).fst = 1 :=
  C5_no_defensive_check zrng 0 3 1 (by decide) (by decide)

/-- Claim C6: at the boundary lengths the fill phase contributes nothing:
with length 3 and includeSpecial false the password is exactly a permutation
of one UPPERCASE, one LOWERCASE and one NUMBERS character; with length 4 and
includeSpecial true it is exactly a permutation of one character from each of
the four classes. -/
theorem C6_boundary_lengths (rng : Nat → Nat) (k : Nat) :
    (∃ u l n, u ∈ UPPERCASE ∧ l ∈ LOWERCASE ∧ n ∈ NUMBERS ∧
      List.Perm (generate_password rng k 3 false) [u, l, n]) ∧
    (∃ u l n s, u ∈ UPPERCASE ∧ l ∈ LOWERCASE ∧ n ∈ NUMBERS ∧ s ∈ SPECIAL ∧
      List.Perm (generate_password rng k 4 true) [u, l, n, s]) := by
  constructor
  · refine ⟨get_random_char UPPERCASE (rng k), get_random_char LOWERCASE (rng (k + 1)),
      get_random_char NUMBERS (rng (k + 2)), get_random_char_mem _ _ (by decide),
      get_random_char_mem _ _ (by decide), get_random_char_mem _ _ (by decide), ?_⟩
    exact shuffle_string_perm rng _ _
  · refine ⟨get_random_char UPPERCASE (rng k), get_random_char LOWERCASE (rng (k + 1)),
      get_random_char NUMBERS (rng (k + 2)), get_random_char SPECIAL (rng (k + 3)),
      get_random_char_mem _ _ (by decide), get_random_char_mem _ _ (by decide),
      get_random_char_mem _ _ (by decide), get_random_char_mem _ _ (by decide), ?_⟩
    exact shuffle_string_perm rng _ _

/-- Claim C7: each fill-phase position (each position of the pre-shuffle
buffer past the guaranteed prefix) holds the result of an independent
two-draw choice: a class index drawn by `rand() % 3` (or `% 4` with
specials), then a character drawn uniformly within the chosen class; fill
slot i uses exactly the draws at counter offsets 2*(i - pos) and
2*(i - pos) + 1 past the guaranteed phase; and when includeSpecial is false
the class draw never selects SPECIAL. -/
theorem C7_fill_independent_choices (rng : Nat → Nat) (k length : Nat)
    (include_special : Bool) (i : Nat)
    (h3 : 3 ≤ length) (h128 : length ≤ 128) (hs : include_special = true → 4 ≤ length)
    (hlo : guaranteed_count length include_special ≤ i) (hhi : i < length) :
    (password_buffer rng k length include_special).getD i 'A' =
      fill_char rng
        (k + guaranteed_count length include_special +
          2 * (i - guaranteed_count length include_special)) include_special ∧
    (∀ (r : Nat → Nat) (j : Nat),
      fill_charset_choice r j include_special =
        (if include_special then r j % 4 else r j % 3)) ∧
    (∀ (r : Nat → Nat) (j : Nat),
      fill_char r j false ∈ UPPERCASE ∨ fill_char r j false ∈ LOWERCASE ∨
        fill_char r j false ∈ NUMBERS) ∧
    (∀ (r : Nat → Nat) (j : Nat), fill_char r j false ∉ SPECIAL) := by
  refine ⟨password_buffer_getD_fill rng k length include_special i
      (guaranteed_count_le length include_special h3) hlo hhi,
    fun r j => rfl, fun r j => fill_char_false_mem r j, ?_⟩
  intro r j
  rcases fill_char_false_mem r j with h | h | h
  · exact upper_not_special _ h
  · exact lower_not_special _ h
  · exact numbers_not_special _ h

/-- Witness for C7 at the all-zero draw stream, length 5, no specials,
buffer position 4. -/
theorem C7_fill_independent_choices_witness :
    (password_buffer zrng 0 5 false).getD 4 'A' =
      fill_char zrng
        (0 + guaranteed_count 5 false + 2 * (4 - guaranteed_count 5 false)) false ∧
    (∀ (r : Nat → Nat) (j : Nat),
      fill_charset_choice r j false = (if false then r j % 4 else r j % 3)) ∧
    (∀ (r : Nat → Nat) (j : Nat),
      fill_char r j false ∈ UPPERCASE ∨ fill_char r j false ∈ LOWERCASE ∨
        fill_char r j false ∈ NUMBERS) ∧
    (∀ (r : Nat → Nat) (j : Nat), fill_char r j false ∉ SPECIAL) :=
  C7_fill_independent_choices zrng 0 5 false 4 (by decide) (by decide) (by decide)
    (by decide) (by decide)

/-- Claim C8: if the special-character flag is set and the effective length is
below 4, main exits with code 1, writes the error line of passgen.c line 131
(which says length must be at least 4 when using special characters) to
standard error, and prints no passwords: the check runs before the header and
the generation loop, so its output is exactly that one error line. -/
theorem C8_special_length_rejected (rng : Nat → Nat) (k length count : Nat)
    (h4 : length < 4) :
    (main_after_parse rng k length true count).fst = 1 ∧
    (main_after_parse rng k length true count).snd = [OutLine.err special_length_error] ∧
    (∀ s, OutLine.out s ∉ (main_after_parse rng k length true count).snd) := by
  have e : main_after_parse rng k length true count =
      (1, [OutLine.err special_length_error]) := by
    unfold main_after_parse
    rw [if_pos ⟨rfl, h4⟩]
  refine ⟨by rw [e], by rw [e], ?_⟩
  intro s hsmem
  rw [e] at hsmem
  simp at hsmem

/-- Witness for C8 at the all-zero draw stream, length 3, count 1. -/
theorem C8_special_length_rejected_witness :
    (main_after_parse zrng 0 3 true 1).fst = 1 ∧
    (main_after_parse zrng 0 3 true 1).snd = [OutLine.err special_length_error] ∧
    (∀ s, OutLine.out s ∉ (main_after_parse zrng 0 3 true 1).snd) :=
  C8_special_length_rejected zrng 0 3 1 (by decide)

/-- Claim C9: for every valid invocation (length in [3,128], count in [1,100],
and length at least 4 when specials are enabled), main exits with code 0 and
its output is the header followed by exactly `count` password lines numbered
1 through count in order, each password exactly `length` characters long,
with the header word pluralized exactly when count exceeds 1. -/
theorem C9_valid_run_output (rng : Nat → Nat) (k length count : Nat)
    (include_special : Bool)
    (h3 : 3 ≤ length) (h128 : length ≤ 128) (hc1 : 1 ≤ count) (hc100 : count ≤ 100)
    (hs : include_special = true → 4 ≤ length) :
    (main_after_parse rng k length include_special count).fst = 0 ∧
    (main_after_parse rng k length include_special count).snd =
      header_lines length include_special count ++
        password_loop rng length include_special k 0 count ∧
    (password_loop rng length include_special k 0 count).length = count ∧
    (∀ j, j < count → ∃ s : List Char,
      (password_loop rng length include_special k 0 count).getD j (OutLine.out ("")) =
        OutLine.out ((toString (j + 1) ++ ": " ++ String.mk s)) ∧ s.length = length) ∧
    (header_lines length include_special count).getD 0 (OutLine.out ("")) =
      OutLine.out ((if 1 < count then "Generated passwords:" else "Generated password:")) := by
  have hcond : ¬((include_special : Prop) ∧ length < 4) := by
    rintro ⟨hsp, hlt⟩
    exact absurd (hs hsp) (by omega)
  have e : main_after_parse rng k length include_special count =
      (0, header_lines length include_special count ++
        password_loop rng length include_special k 0 count) := by
    unfold main_after_parse
    rw [if_neg hcond]
  refine ⟨by rw [e], by rw [e], password_loop_length rng length include_special count k 0,
    ?_, ?_⟩
  · intro j hj
    refine ⟨generate_password rng (k + j * draws_used length include_special)
      length include_special, ?_, generate_password_length _ _ _ _⟩
    have hline := password_loop_getD rng length include_special count j k 0 hj
    rw [hline]
    have h0 : 0 + j + 1 = j + 1 := by omega
    rw [h0]
  · unfold header_lines
    simp only [List.getD_cons_zero]
    by_cases h : 1 < count
    · rw [if_pos h, if_pos h]
      rfl
    · rw [if_neg h, if_neg h]
      rfl

/-- Witness for C9 at the all-zero draw stream, length 3, one password. -/
theorem C9_valid_run_output_witness :
    (main_after_parse zrng 0 3 false 1).fst = 0 ∧
    (main_after_parse zrng 0 3 false 1).snd =
      header_lines 3 false 1 ++ password_loop zrng 3 false 0 0 1 ∧
    (password_loop zrng 3 false 0 0 1).length = 1 ∧
    (∀ j, j < 1 → ∃ s : List Char,
      (password_loop zrng 3 false 0 0 1).getD j (OutLine.out ("")) =
        OutLine.out ((toString (j + 1) ++ ": " ++ String.mk s)) ∧ s.length = 3) ∧
    (header_lines 3 false 1).getD 0 (OutLine.out ("")) =
      OutLine.out ((if 1 < 1 then "Generated passwords:" else "Generated password:")) :=
  C9_valid_run_output zrng 0 3 1 false (by decide) (by decide) (by decide) (by decide)
    (by decide)

/-- Claim C10: for every valid policy the generated password never contains
the lowercase letter o: LOWERCASE omits it (in addition to the five
documented excluded characters, which do not include it), and indeed no
charset contains it, even though the banner line printed by passgen.c line
150 lists only the five characters 0, O, I, l, 1 as excluded. -/
theorem C10_lowercase_o_never_appears (rng : Nat → Nat) (k length : Nat)
    (include_special : Bool)
    (h3 : 3 ≤ length) (h128 : length ≤ 128) (hs : include_special = true → 4 ≤ length) :
    ('o' ∉ generate_password rng k length include_special) ∧
    'o' ∉ LOWERCASE ∧ 'o' ∉ UPPERCASE ∧ 'o' ∉ NUMBERS ∧ 'o' ∉ SPECIAL ∧
    'o' ∉ excluded_similar ∧
    (∀ count, (header_lines length include_special count).getD 3 (OutLine.out ("")) =
      OutLine.out ("Excluded similar characters: 0, O, I, l, 1")) := by
  refine ⟨?_, by decide, by decide, by decide, by decide, by decide, fun count => rfl⟩
  intro hmem
  rcases mem_generate_union rng k length include_special 'o' hmem with h | h | h | h <;>
    revert h <;> decide

/-- Witness for C10 at the all-zero draw stream, length 12, no specials. -/
theorem C10_lowercase_o_never_appears_witness :
    ('o' ∉ generate_password zrng 0 12 false) ∧
    'o' ∉ LOWERCASE ∧ 'o' ∉ UPPERCASE ∧ 'o' ∉ NUMBERS ∧ 'o' ∉ SPECIAL ∧
    'o' ∉ excluded_similar ∧
    (∀ count, (header_lines 12 false count).getD 3 (OutLine.out ("")) =
      OutLine.out ("Excluded similar characters: 0, O, I, l, 1")) :=
  C10_lowercase_o_never_appears zrng 0 12 false (by decide) (by decide) (by decide)
